import Mathlib

/-!
Verification of the version-store and report-extraction core of the
Al-QuranCircle Autofill tool.

The Python source is shallowly embedded: strings are lists of characters
(`Str`), JSON profile documents are ordered association lists (`Doc`,
mirroring Python dict insertion order), file-system effects are made
explicit (a history file is an optional list of lines, a raised exception
is an `Except.error`).  Every definition follows the corresponding
function in `src/utils.py` or `src/reporting/report_extractor.py`.
-/

set_option synthInstance.maxSize 1024

deriving instance DecidableEq for Except

/-- Python strings are modelled as lists of characters, so that every string
operation used by the source reduces structurally in the kernel. -/
abbrev Str := List Char

/-- Converts a Lean string literal to the `Str` model. -/
def S (s : String) : Str := s.data

/-- Python whitespace characters stripped by `str.strip()`. -/
def isPySpace (c : Char) : Bool :=
  c = ' ' || c = '\t' || c = '\n' || c = '\r' || c = '\x0b' || c = '\x0c'

/-- Model of Python `str.strip()`. -/
def trimS (s : Str) : Str :=
  ((s.dropWhile isPySpace).reverse.dropWhile isPySpace).reverse

/-- Model of an ASCII decimal digit test, as in the `strptime` regexes. -/
def isDigitB (c : Char) : Bool := decide ('0' ≤ c) && decide (c ≤ '9')

/-- Numeric value of a digit string (valid only when all characters are digits). -/
def digitsVal (s : Str) : Nat := s.foldl (fun a c => a * 10 + (c.toNat - 48)) 0

/-- Parses a run of digits with a length window and a value window, as the
`strptime` field regexes do (`%d` is 1-2 digits valued 1-31, `%m` 1-2 digits
valued 1-12, `%Y` exactly 4 digits). -/
def parseNum (s : Str) (minL maxL lo hi : Nat) : Option Nat :=
  if s.length < minL || maxL < s.length || !(s.all isDigitB) then none
  else
    let n := digitsVal s
    if lo ≤ n && n ≤ hi then some n else none

/-- Splits a string at every occurrence of a separator character, exactly as
Python `str.split(sep)` does for a one-character separator. -/
def splitOnChar (sep : Char) : Str → List Str
  | [] => [[]]
  | c :: rest =>
    let r := splitOnChar sep rest
    if c = sep then [] :: r
    else
      match r with
      | h :: t => (c :: h) :: t
      | [] => [[c]]

/-- Calendar date, the relevant projection of a Python `datetime`. -/
structure Date where
  year : Nat
  month : Nat
  day : Nat
deriving DecidableEq, Repr

/-- Gregorian leap-year test, as in Python `datetime`. -/
def isLeap (y : Nat) : Bool := (y % 4 == 0 && y % 100 != 0) || y % 400 == 0

/-- Number of days of a month, as validated by the `datetime` constructor. -/
def daysInMonth (y m : Nat) : Nat :=
  if m = 2 then (if isLeap y then 29 else 28)
  else if m = 4 || m = 6 || m = 9 || m = 11 then 30
  else 31

/-- Validity check performed by the `datetime` constructor (`MINYEAR = 1`,
`MAXYEAR = 9999`, day within the month). -/
def validCalendar (y m d : Nat) : Bool :=
  1 ≤ y && y ≤ 9999 && 1 ≤ m && m ≤ 12 && 1 ≤ d && d ≤ daysInMonth y m

/-- Assembles a `Date` from day, month and year digit fields, applying the
`strptime` field windows and the `datetime` constructor validation. -/
def dateFrom (pd pm py : Str) : Option Date :=
  match parseNum pd 1 2 1 31, parseNum pm 1 2 1 12, parseNum py 4 4 0 9999 with
  | some d, some m, some y => if validCalendar y m d then some ⟨y, m, d⟩ else none
  | _, _, _ => none

/-- Model of `datetime.strptime(s, "%d/%m/%Y")` (success as `some`). -/
def parseDMYslash (s : Str) : Option Date :=
  match splitOnChar '/' s with
  | [p1, p2, p3] => dateFrom p1 p2 p3
  | _ => none

/-- Model of `datetime.strptime(s, "%Y-%m-%d")`. -/
def parseYMDdash (s : Str) : Option Date :=
  match splitOnChar '-' s with
  | [p1, p2, p3] => dateFrom p3 p2 p1
  | _ => none

/-- Model of `datetime.strptime(s, "%m/%d/%Y")`. -/
def parseMDYslash (s : Str) : Option Date :=
  match splitOnChar '/' s with
  | [p1, p2, p3] => dateFrom p2 p1 p3
  | _ => none

/-- Model of `datetime.strptime(s, "%d-%m-%Y")`. -/
def parseDMYdash (s : Str) : Option Date :=
  match splitOnChar '-' s with
  | [p1, p2, p3] => dateFrom p1 p2 p3
  | _ => none

/-- Model of `datetime.strptime(s, "%m-%d-%Y")`. -/
def parseMDYdash (s : Str) : Option Date :=
  match splitOnChar '-' s with
  | [p1, p2, p3] => dateFrom p2 p1 p3
  | _ => none

/-!
Profile documents.  A Python profile is a JSON object read into a `dict`;
it is modelled as an insertion-ordered association list with string keys
and string values (every field the source touches is a string).
-/

/-- A profile document: an insertion-ordered field map, as a Python dict. -/
abbrev Doc := List (Str × Str)

/-- Model of Python `dict.get(key)`: the value of the first matching key,
`None` (here `none`) when the key is absent. -/
def dget : Doc → Str → Option Str
  | [], _ => none
  | (k, v) :: rest, key => if k = key then some v else dget rest key

/-- Model of Python `dict.get(key, default)`. -/
def dgetD (d : Doc) (key dflt : Str) : Str := (dget d key).getD dflt

/-- Model of Python `dict[key] = value`: updates the existing slot in place
or appends the new key at the end (dict insertion order). -/
def setField (d : Doc) (key v : Str) : Doc :=
  if (dget d key).isSome then
    d.map (fun p => if p.1 = key then (key, v) else p)
  else d ++ [(key, v)]

/-- Model of Python `dict.setdefault(key, value)`: inserts only when absent. -/
def setDefaultField (d : Doc) (key v : Str) : Doc :=
  if (dget d key).isSome then d else d ++ [(key, v)]

/-- Key list of a document (`dict.keys()`). -/
def docKeys (d : Doc) : List Str := d.map Prod.fst

/-- Keeps the first occurrence of every element, dropping those already seen;
models iteration over the Python set `set(old) | set(new)` of field names
(membership is what matters; the model fixes first-seen order). -/
def dedupAux : List Str → List Str → List Str
  | [], _ => []
  | k :: ks, seen => if k ∈ seen then dedupAux ks seen else k :: dedupAux ks (k :: seen)

/-- Key set of the union of two key lists, first occurrence kept. -/
def dedupKeys (l : List Str) : List Str := dedupAux l []

/-!
`_compute_profile_diff` and the history log (`src/utils.py`, lines 371-429).
-/

/-- One `{field: {old, new}}` change cell of `_compute_profile_diff`; the two
`Option`s are the Python `dict.get` results (`none` = the field was absent). -/
abbrev Change := Str × Option Str × Option Str

/-- Model of `_compute_profile_diff(old, new)`: for every key of either
document whose `get` values differ (absence is `None`, distinct from the
empty string), emit the `{old, new}` pair. -/
def computeProfileDiff (old new : Doc) : List Change :=
  (dedupKeys (docKeys old ++ docKeys new)).filterMap fun k =>
    if dget old k ≠ dget new k then some (k, dget old k, dget new k) else none

/-- One history log entry, as serialized by `append_profile_history`:
`version` is read back with `entry.get("version", 0)`, hence optional. -/
structure HistEntry where
  version : Option Int
  timestamp : Str
  profileFile : Str
  changes : List Change
  snapshot : Doc
deriving DecidableEq, Repr

/-- Model of `append_profile_history(profile_path, old_data, new_data)` acting
on the already-loaded log of the record: reads the last version (0 when the
log is empty), computes the diff, returns the log unchanged when the diff is
empty, and otherwise appends one entry with version `last + 1`, the given
timestamp, and the full new state (with `_file` defaulted) as snapshot. -/
def appendProfileHistory (log : List HistEntry) (old new : Doc) (ts pathStr fileName : Str) :
    List HistEntry :=
  let lastVersion : Int :=
    match log.getLast? with
    | some e => e.version.getD 0
    | none => 0
  let version := lastVersion + 1
  let changes := computeProfileDiff old new
  if changes.isEmpty then log
  else log ++ [{ version := some version, timestamp := ts, profileFile := fileName,
                 changes := changes, snapshot := setDefaultField new (S "_file") pathStr }]

/-- One physical line of a history `.jsonl` file as `load_profile_history`
classifies it: blank (skipped), invalid JSON (logged and skipped), valid JSON
that is not an object (skipped), or a parsed entry. -/
inductive ULine where
  | blank
  | malformed
  | nonDict
  | valid (e : HistEntry)
deriving DecidableEq

/-- Model of `load_profile_history(profile_path)`: `none` stands for a
non-existent log file (returns the empty list); otherwise every line that
parses to a dict contributes one entry, in file order. -/
def loadProfileHistory : Option (List ULine) → List HistEntry
  | none => []
  | some ls => ls.filterMap fun l => match l with | .valid e => some e | _ => none

/-!
Validation and saving (`validate_profile_data`, `validate_email`,
`save_profile` in `src/utils.py`).
-/

/-- Character class `[a-zA-Z0-9._%+-]` of the email regex local part. -/
def localChar (c : Char) : Bool :=
  c.isAlpha || isDigitB c || c = '.' || c = '_' || c = '%' || c = '+' || c = '-'

/-- Character class `[a-zA-Z0-9.-]` of the email regex domain part. -/
def domainChar (c : Char) : Bool := c.isAlpha || isDigitB c || c = '.' || c = '-'

/-- Splits a string at the first occurrence of a character, returning the part
before and the part after, or `none` when the character does not occur. -/
def splitFirst (sep : Char) : Str → Option (Str × Str)
  | [] => none
  | c :: rest =>
    if c = sep then some ([], rest)
    else
      match splitFirst sep rest with
      | some (a, b) => some (c :: a, b)
      | none => none

/-- Splits a string at the last occurrence of a character. -/
def splitLast (sep : Char) (s : Str) : Option (Str × Str) :=
  match splitFirst sep s.reverse with
  | some (a, b) => some (b.reverse, a.reverse)
  | none => none

/-- Model of `validate_email`: the anchored regex
`[a-zA-Z0-9._%+-]+@[a-zA-Z0-9.-]+\.[a-zA-Z]{2,}` matches the stripped input
exactly when it decomposes as local `@` domain `.` tld, with the tld being
the part after the last dot (the tld admits no dot, so only the last dot can
close the match). -/
def validEmail (s : Str) : Bool :=
  let t := trimS s
  match splitFirst '@' t with
  | none => false
  | some (l, r) =>
    match splitLast '.' r with
    | none => false
    | some (d, tld) =>
      !l.isEmpty && l.all localChar && !d.isEmpty && d.all domainChar &&
        decide (2 ≤ tld.length) && tld.all (fun c => c.isAlpha)

/-- The five formats tried in order by the date check of
`validate_profile_data`; the loop accepts the field as soon as one parses. -/
def validDateFieldFive (s : Str) : Bool :=
  (parseYMDdash s).isSome || (parseDMYslash s).isSome || (parseMDYslash s).isSome ||
    (parseDMYdash s).isSome || (parseMDYdash s).isSome

/-- The `max_lengths` table of `validate_profile_data`, in dict-literal order. -/
def maxLengths : List (Str × Nat) :=
  [(S "teacher_name", 200), (S "quran_surah", 200), (S "noor_page", 500),
   (S "tajweed_rules", 500), (S "topic", 500), (S "homework", 2000),
   (S "parent_notes", 2000), (S "admin_notes", 2000)]

/-- The per-field length loop of `validate_profile_data`: the first present,
non-empty field value longer than its bound yields an error naming the field
(message text abbreviated to the field name). -/
def fieldLengthError (d : Doc) : List (Str × Nat) → Option Str
  | [] => none
  | (f, maxLen) :: rest =>
    let v := dgetD d f []
    if !v.isEmpty && maxLen < v.length then some f else fieldLengthError d rest

/-- Model of `validate_profile_data(data)`: `none` means valid, `some msg` the
first failing check, in source order: required non-empty `student_name`, name
length, optional email, optional date against the five-format loop, then the
field-length table. -/
def validateProfileData (d : Doc) : Option Str :=
  let name := trimS (dgetD d (S "student_name") [])
  if name.isEmpty then some (S "Student name is required")
  else if 200 < name.length then some (S "Student name is too long")
  else
    let email := trimS (dgetD d (S "email") [])
    if !email.isEmpty && !validEmail email then some (S "Invalid email format")
    else
      let dateStr := trimS (dgetD d (S "date") [])
      if !dateStr.isEmpty && !validDateFieldFive dateStr then
        some (S "Invalid date format")
      else fieldLengthError d maxLengths

/-- Model of `save_profile(profile_data)`: validation failure raises
`ValueError` before anything is written (`.error msg`); on success the
profile content is written out unchanged (`.ok` carries the persisted
document).  Filename generation, sanitization and the path-containment check
are filesystem plumbing that cannot fail for the generated name and are not
part of the embedding. -/
def saveProfile (d : Doc) : Except Str Doc :=
  match validateProfileData d with
  | some msg => .error msg
  | none => .ok d

/-!
Report extraction (`src/reporting/report_extractor.py`).
-/

/-- The `mode` field of `ReportCriteria`. -/
inductive RMode where
  | first
  | last
  | allR
deriving DecidableEq, Repr

/-- Model of the `ReportCriteria` dataclass. -/
structure Criteria where
  student_name : Option Str := none
  month : Option Int := none
  year : Option Int := none
  mode : RMode := .allR

/-- Python truthiness of an `Optional[int]`: `None` and `0` are falsy. -/
def optITruthy : Option Int → Bool
  | none => false
  | some n => decide (n ≠ 0)

/-- Python truthiness of an `Optional[str]`: `None` and `""` are falsy. -/
def optSTruthy : Option Str → Bool
  | none => false
  | some s => !s.isEmpty

/-- Model of `ReportExtractor._parse_date`: `DD/MM/YYYY` first, falling back
to `YYYY-MM-DD`; `none` stands for the raised `ValueError`. -/
def parseDate (s : Str) : Option Date :=
  match parseDMYslash s with
  | some d => some d
  | none => parseYMDdash s

/-- Model of `ReportExtractor._matches_date_criteria(report_date, criteria)`:
when neither `month` nor `year` is truthy the check short-circuits to `True`
without parsing; otherwise an unparseable date yields `False`, and a parsed
date must agree with every truthy constraint. -/
def matchesDateCriteria (rd : Str) (c : Criteria) : Bool :=
  if !(optITruthy c.month || optITruthy c.year) then true
  else
    match parseDate rd with
    | none => false
    | some dt =>
      if optITruthy c.year && decide ((dt.year : Int) ≠ c.year.getD 0) then false
      else if optITruthy c.month && decide ((dt.month : Int) ≠ c.month.getD 0) then false
      else true

/-- Boolean prefix test on character lists (the semantics of the glob pattern
`base*.jsonl` over the stem of a history file name). -/
def strStarts : Str → Str → Bool
  | [], _ => true
  | _ :: _, [] => false
  | a :: as_, b :: bs => decide (a = b) && strStarts as_ bs

/-- Model of `profile_path.stem.split(' - ')[0]`: the stem up to the first
occurrence of the three-character separator. -/
def baseNameOf : Str → Str
  | [] => []
  | [c] => [c]
  | [c1, c2] => [c1, c2]
  | c1 :: c2 :: c3 :: rest =>
    if c1 = ' ' && c2 = '-' && c3 = ' ' then []
    else c1 :: baseNameOf (c2 :: c3 :: rest)

/-- One line of a history file as `_load_profile_history` classifies it:
unparseable JSON (skipped), a JSON value without a `snapshot` key (skipped),
or an entry carrying a snapshot document and a `timestamp` string (absent
timestamp modelled as the empty string, matching `entry.get('timestamp', '')`). -/
inductive XLine where
  | bad
  | noSnap
  | snap (d : Doc) (ts : Str)
deriving DecidableEq

/-- The history directory: stem of each `.jsonl` file, with `none` for a file
whose open fails with `IOError`/`OSError` (skipped). -/
abbrev HistDir := List (Str × Option (List XLine))

/-- Model of `ReportExtractor._load_profile_history(profile_path)`: every
history file whose stem starts with the profile's base name is read (the glob
`f"{base_name}*.jsonl"`), and each snapshot line becomes a report document
with `_file` set to the profile path and `_timestamp` to the entry timestamp. -/
def loadHistX (hist : HistDir) (path : Str) : List Doc :=
  (hist.filter fun f => strStarts (baseNameOf path) f.1).flatMap fun f =>
    match f.2 with
    | none => []
    | some lines =>
      lines.filterMap fun l =>
        match l with
        | .snap d ts => some (setField (setField d (S "_file") path) (S "_timestamp") ts)
        | _ => none

/-- The dedup identity of an entry inside `get_reports`:
`(date, quran_surah, topic)` with empty-string defaults. -/
def entryKey (e : Doc) : Str × Str × Str :=
  (dgetD e (S "date") [], dgetD e (S "quran_surah") [], dgetD e (S "topic") [])

/-- Stable insertion sort: inserts each element before the first existing
element it is strictly preferred to, so elements comparing equal keep their
original relative order (the stability guarantee of Python `list.sort`). -/
def insertS (le : α → α → Bool) (x : α) : List α → List α
  | [] => [x]
  | y :: ys => if le x y then x :: y :: ys else y :: insertS le x ys

/-- Stable sort by a boolean total preorder, as Python `list.sort`. -/
def sortS (le : α → α → Bool) : List α → List α
  | [] => []
  | x :: xs => insertS le x (sortS le xs)

/-- Chronological order on dates (`datetime` comparison). -/
def dateLe (a b : Date) : Bool :=
  decide (a.year < b.year) ||
    (decide (a.year = b.year) &&
      (decide (a.month < b.month) || (decide (a.month = b.month) && decide (a.day ≤ b.day))))

/-- Lexicographic code-point order on strings (Python `str` comparison),
the key order of the second sort in `get_reports`. -/
def strLe : Str → Str → Bool
  | [], _ => true
  | _ :: _, [] => false
  | a :: as_, b :: bs => if a = b then strLe as_ bs else decide (a < b)

/-- The sort key of the first sort in `get_reports`:
`datetime.strptime(x.get('date', '1970-01-01'), '%d/%m/%Y')` — strict
`DD/MM/YYYY`, so a missing date (whose default is in `YYYY-MM-DD`) or a
legacy-format date makes the key raise. -/
def phase1Key (e : Doc) : Option Date :=
  parseDMYslash (dgetD e (S "date") (S "1970-01-01"))

/-- Computes all phase-1 sort keys; `none` models the `ValueError` that
aborts `get_reports` (the surrounding handler catches only
`json.JSONDecodeError` and `OSError`). -/
def phase1Keys : List Doc → Option (List (Doc × Date))
  | [] => some []
  | e :: rest =>
    match phase1Key e, phase1Keys rest with
    | some k, some l => some ((e, k) :: l)
    | _, _ => none

/-- The first sort of `get_reports`: stable, by parsed date, newest first
(`reverse=True`); raises when any key fails to parse. -/
def sortDescByParsedDate (l : List Doc) : Except Str (List Doc) :=
  match phase1Keys l with
  | none => .error (S "ValueError: invalid date in sort key")
  | some pairs => .ok ((sortS (fun a b => dateLe b.2 a.2) pairs).map Prod.fst)

/-- The in-loop mode filter of `get_reports`, applied to the newest-first
list: `first` keeps the last element (oldest), `last` the head (newest),
`all` (and an empty list) is left unchanged. -/
def phase1Mode (m : RMode) (l : List Doc) : List Doc :=
  match m, l with
  | .first, h :: t => [List.getLastD t h]
  | .last, h :: _ => [h]
  | _, l => l

/-- The dedup-and-filter loop of `get_reports`: walks the merged candidates
(current state first, then history in log order) with a fresh `seen` set,
appending to the student's accumulated report list each entry whose key is
unseen and whose date passes the criteria. -/
def dedupPass (c : Criteria) (init : List Doc) (entries : List Doc) : List Doc :=
  (entries.foldl
    (fun (st : List (Str × Str × Str) × List Doc) e =>
      let k := entryKey e
      if !(decide (k ∈ st.1)) && matchesDateCriteria (dgetD e (S "date") []) c then
        (k :: st.1, st.2 ++ [e])
      else st)
    ([], init)).2

/-- The accumulating `all_reports` dictionary: student name to report list,
in insertion order. -/
abbrev ARMap := List (Str × List Doc)

/-- Dictionary lookup in `all_reports`. -/
def arGet (m : ARMap) (k : Str) : Option (List Doc) :=
  match m with
  | [] => none
  | (k1, v) :: rest => if k1 = k then some v else arGet rest k

/-- Dictionary update in `all_reports` (in-place slot update or append). -/
def arSet (m : ARMap) (k : Str) (v : List Doc) : ARMap :=
  match m with
  | [] => [(k, v)]
  | (k1, v1) :: rest => if k1 = k then (k, v) :: rest else (k1, v1) :: arSet rest k v

/-- One profile of the profiles directory: its stem and its parsed JSON
content, `none` when `json.load` raises (caught; the profile is skipped). -/
abbrev ProfileFile := Str × Option Doc

/-- The per-profile loop body of `get_reports`: skip unparseable files, skip
non-matching student names, add the current state (stamped with `_file` and
`_timestamp`), merge in the history snapshots through the dedup pass, sort
the student's accumulated list newest-first (which may raise), apply the
in-loop mode filter, then unconditionally append every history snapshot
again. -/
def processProfile (hist : HistDir) (now : Str) (c : Criteria) (m : ARMap)
    (p : ProfileFile) : Except Str ARMap :=
  match p.2 with
  | none => .ok m
  | some data =>
    let name := dgetD data (S "student_name") (S "Unknown")
    if optSTruthy c.student_name && decide (name ≠ c.student_name.getD []) then .ok m
    else
      let m1 := if (arGet m name).isSome then m else m ++ [(name, [])]
      let current := setField (setField data (S "_file") p.1) (S "_timestamp") now
      let histReports := loadHistX hist p.1
      let merged := dedupPass c ((arGet m1 name).getD []) (current :: histReports)
      match sortDescByParsedDate merged with
      | .error e => .error e
      | .ok sorted =>
        let moded := phase1Mode c.mode sorted
        let withHist := moded ++ histReports.map (fun h => setField h (S "_file") p.1)
        .ok (arSet m1 name withHist)

/-- The final per-student pass of `get_reports`: re-filter by the date
criteria, drop the student when nothing survives, sort ascending by the raw
date string, then reduce by mode (`first` keeps the head, `last` the final
element, `all` everything). -/
def phase2Student (c : Criteria) (reports : List Doc) : Option (List Doc) :=
  let sr := reports.filter fun r => matchesDateCriteria (dgetD r (S "date") []) c
  match sortS (fun a b => strLe (dgetD a (S "date") []) (dgetD b (S "date") [])) sr with
  | [] => none
  | h :: t =>
    some (match c.mode with
          | .first => [h]
          | .last => [List.getLastD t h]
          | .allR => h :: t)

/-- The extractor state: the profiles directory (in glob order), the history
directory, and the current wall-clock timestamp used to stamp live records. -/
structure XState where
  profiles : List ProfileFile
  history : HistDir
  now : Str

/-- Model of `ReportExtractor.get_reports(criteria)`: folds the per-profile
loop over the profiles directory, then applies the final filter/sort/mode
pass per student; `.error` models the uncaught `ValueError` escaping from
the newest-first sort. -/
def getReports (st : XState) (c : Criteria) : Except Str ARMap :=
  match st.profiles.foldlM (processProfile st.history st.now c) ([] : ARMap) with
  | .error e => .error e
  | .ok m =>
    .ok (m.filterMap fun p => (phase2Student c p.2).map fun l => (p.1, l))

/-!
Concrete extraction scenarios used by the claims about `get_reports`.
-/

/-- Current state of the record in the duplicate-key scenario. -/
def c1cur : Doc :=
  [(S "student_name", S "Ali"), (S "date", S "01/01/2024"),
   (S "quran_surah", S "Al-Fatiha"), (S "topic", S "T1"), (S "teacher_name", S "X")]

/-- History snapshot sharing the dedup key of `c1cur` but differing in the
teacher field. -/
def c1snap : Doc :=
  [(S "student_name", S "Ali"), (S "date", S "01/01/2024"),
   (S "quran_surah", S "Al-Fatiha"), (S "topic", S "T1"), (S "teacher_name", S "Y")]

/-- Extractor state of the duplicate-key scenario: one record, one history
snapshot with the same `(date, quran_surah, topic)` key. -/
def c1state : XState :=
  { profiles := [(S "Ali_1", some c1cur)],
    history := [(S "Ali_1", some [.snap c1snap (S "2024-01-01T10:00:00")])],
    now := S "2025-01-01T00:00:00" }

/-- The current entry as stamped by `get_reports`. -/
def c1curR : Doc := setField (setField c1cur (S "_file") (S "Ali_1")) (S "_timestamp") c1state.now

/-- The history snapshot as stamped by `_load_profile_history`. -/
def c1histR : Doc :=
  setField (setField c1snap (S "_file") (S "Ali_1")) (S "_timestamp") (S "2024-01-01T10:00:00")

/-- Records of the three-dates scenario: current state dated `20/12/2024`. -/
def c2cur : Doc :=
  [(S "student_name", S "Ali"), (S "date", S "20/12/2024"),
   (S "quran_surah", S "S3"), (S "topic", S "T3")]

/-- History snapshot dated `01/01/2024`. -/
def c2h01 : Doc :=
  [(S "student_name", S "Ali"), (S "date", S "01/01/2024"),
   (S "quran_surah", S "S1"), (S "topic", S "T1")]

/-- History snapshot dated `15/06/2024`. -/
def c2h15 : Doc :=
  [(S "student_name", S "Ali"), (S "date", S "15/06/2024"),
   (S "quran_surah", S "S2"), (S "topic", S "T2")]

/-- Extractor state of the three-dates scenario. -/
def c2state : XState :=
  { profiles := [(S "Ali_1", some c2cur)],
    history := [(S "Ali_1", some [.snap c2h01 (S "t1"), .snap c2h15 (S "t2")])],
    now := S "2025-01-01T00:00:00" }

/-- The current `20/12/2024` entry as stamped by `get_reports`. -/
def c2curR : Doc := setField (setField c2cur (S "_file") (S "Ali_1")) (S "_timestamp") c2state.now

/-- The `01/01/2024` snapshot as stamped by `_load_profile_history`. -/
def c2h01R : Doc := setField (setField c2h01 (S "_file") (S "Ali_1")) (S "_timestamp") (S "t1")

/-- The `15/06/2024` snapshot as stamped by `_load_profile_history`. -/
def c2h15R : Doc := setField (setField c2h15 (S "_file") (S "Ali_1")) (S "_timestamp") (S "t2")

/-- Extractor state of the legacy-date scenario: one record whose current
state carries its date in the legacy `YYYY-MM-DD` format. -/
def c9state : XState :=
  { profiles := [(S "Sara_1",
      some [(S "student_name", S "Sara"), (S "date", S "2024-06-15"),
            (S "quran_surah", S "S1"), (S "topic", S "T1")])],
    history := [],
    now := S "2025-01-01T00:00:00" }

/-!
Version sequences of logs built purely by `append_profile_history`.
-/

/-- The version numbers read back from a log, each through
`entry.get("version", 0)`. -/
def versionList (l : List HistEntry) : List Int := l.map fun e => e.version.getD 0

/-- The gap-free sequence `1, 2, …, n`. -/
def natVersions (n : Nat) : List Int := (List.range n).map fun i => (i : Int) + 1

/-- The arguments of one `append_profile_history` call. -/
structure SaveOp where
  old : Doc
  new : Doc
  ts : Str
  pathStr : Str
  fileName : Str

/-- A history log produced only by `append_profile_history`, starting from a
non-existent log file (the empty list). -/
def buildLog (ops : List SaveOp) : List HistEntry :=
  ops.foldl (fun l o => appendProfileHistory l o.old o.new o.ts o.pathStr o.fileName) []


/-!
Helper lemmas.
-/

theorem mem_dedupAux (a : Str) :
    ∀ (l seen : List Str), a ∈ dedupAux l seen ↔ a ∈ l ∧ a ∉ seen := by
  intro l
  induction l with
  | nil => intro seen; simp [dedupAux]
  | cons k ks ih =>
    intro seen
    by_cases hk : k ∈ seen
    · rw [dedupAux, if_pos hk, ih]
      simp only [List.mem_cons]
      by_cases hak : a = k
      · subst hak; tauto
      · tauto
    · rw [dedupAux, if_neg hk]
      simp only [List.mem_cons, ih, List.mem_cons]
      by_cases hak : a = k
      · subst hak; tauto
      · tauto

theorem mem_dedupKeys (a : Str) (l : List Str) : a ∈ dedupKeys l ↔ a ∈ l := by
  simp [dedupKeys, mem_dedupAux]

theorem dget_eq_none_of_not_mem (d : Doc) (k : Str) (h : k ∉ docKeys d) : dget d k = none := by
  induction d with
  | nil => rfl
  | cons p rest ih =>
    obtain ⟨k1, v⟩ := p
    simp only [docKeys, List.map_cons, List.mem_cons, not_or] at h
    simp only [dget]
    rw [if_neg fun he => h.1 he.symm]
    exact ih (by simpa [docKeys] using h.2)

theorem natVersions_succ (n : Nat) : natVersions (n + 1) = natVersions n ++ [(n : Int) + 1] := by
  simp [natVersions, List.range_succ]

theorem lastVersion_of_inv (l : List HistEntry) (h : versionList l = natVersions l.length) :
    (match l.getLast? with
     | some e => e.version.getD 0
     | none => 0) = (l.length : Int) := by
  cases l with
  | nil => simp
  | cons x xs =>
    have hne : x :: xs ≠ [] := by simp
    have hsome := List.getLast?_isSome.mpr hne
    cases hl : (x :: xs).getLast? with
    | none => rw [hl] at hsome; simp at hsome
    | some e =>
      have hmap := List.getLast?_map (fun e => e.version.getD 0) (x :: xs)
      rw [hl] at hmap
      have h2 : (versionList (x :: xs)).getLast? = some (e.version.getD 0) := by
        simpa [versionList] using hmap
      rw [h, List.length_cons, natVersions_succ, List.getLast?_concat] at h2
      have h3 : (xs.length : Int) + 1 = e.version.getD 0 := Option.some_inj.mp h2
      show e.version.getD 0 = ((x :: xs).length : Int)
      simp only [List.length_cons]
      omega

theorem versionList_appendPH (l : List HistEntry) (od nw : Doc) (ts p f : Str)
    (h : versionList l = natVersions l.length) :
    versionList (appendProfileHistory l od nw ts p f) =
      natVersions (appendProfileHistory l od nw ts p f).length := by
  by_cases hc : (computeProfileDiff od nw).isEmpty
  · have hrw : appendProfileHistory l od nw ts p f = l := by
      simp [appendProfileHistory, hc]
    rw [hrw]; exact h
  · have hrw : appendProfileHistory l od nw ts p f =
        l ++ [{ version := some ((match l.getLast? with
                                  | some e => e.version.getD 0
                                  | none => 0) + 1),
                timestamp := ts, profileFile := f,
                changes := computeProfileDiff od nw,
                snapshot := setDefaultField nw (S "_file") p }] := by
      simp [appendProfileHistory, hc]
    rw [hrw]
    simp only [versionList, List.map_append, List.map_cons, List.map_nil,
      List.length_append, List.length_cons, List.length_nil, Option.getD_some]
    rw [lastVersion_of_inv l h]
    have : l.length + (0 + 1) = l.length + 1 := by omega
    rw [this, natVersions_succ]
    simp [versionList] at h
    rw [h]

theorem buildLog_fold_inv :
    ∀ (ops : List SaveOp) (l : List HistEntry), versionList l = natVersions l.length →
      versionList (ops.foldl
        (fun l o => appendProfileHistory l o.old o.new o.ts o.pathStr o.fileName) l) =
      natVersions ((ops.foldl
        (fun l o => appendProfileHistory l o.old o.new o.ts o.pathStr o.fileName) l)).length := by
  intro ops
  induction ops with
  | nil => intro l h; simpa using h
  | cons o os ih =>
    intro l h
    simp only [List.foldl_cons]
    exact ih _ (versionList_appendPH _ _ _ _ _ _ h)

theorem baseName_starts (s : Str) : strStarts (baseNameOf s) s = true := by
  induction s using baseNameOf.induct <;> simp [baseNameOf, strStarts, *]

theorem strStarts_trans : ∀ (a b c : Str),
    strStarts a b = true → strStarts b c = true → strStarts a c = true := by
  intro a
  induction a with
  | nil => intro b c _ _; rfl
  | cons x xs ih =>
    intro b c hab hbc
    cases b with
    | nil => simp [strStarts] at hab
    | cons y ys =>
      cases c with
      | nil => simp [strStarts] at hbc
      | cons z zs =>
        simp only [strStarts, Bool.and_eq_true, decide_eq_true_eq] at hab hbc ⊢
        exact ⟨hab.1.trans hbc.1, ih ys zs hab.2 hbc.2⟩

theorem validate_none_conditions (d : Doc) (h : validateProfileData d = none) :
    trimS (dgetD d (S "student_name") []) ≠ [] ∧
    (trimS (dgetD d (S "date") []) = [] ∨
      validDateFieldFive (trimS (dgetD d (S "date") [])) = true) := by
  simp only [validateProfileData] at h
  split_ifs at h with h1 h2 h3 h4
  constructor
  · intro hnil
    rw [hnil] at h1
    simp at h1
  · by_cases hfive : validDateFieldFive (trimS (dgetD d (S "date") [])) = true
    · exact Or.inr hfive
    · left
      simp only [Bool.and_eq_true, Bool.not_eq_true', not_and] at h4
      cases hE : (trimS (dgetD d (S "date") [])).isEmpty
      · exact absurd (h4 hE) (by simpa using hfive)
      · simpa [List.isEmpty_iff] using hE

/-!
Claim theorems.
-/

/-- Claim C1 (code bug): the dedup pass of `get_reports` keeps only the
first-seen of two candidates sharing a `(date, quran_surah, topic)` key, but
the loop then unconditionally re-appends every history snapshot, so the
final result contains both the current entry and the same-key history
snapshot — although the source's own comment says the merge ensures there
are no duplicates.  On a record whose current state and sole history
snapshot share the dedup key but differ in the teacher field, extraction
with empty criteria returns both entries. -/
theorem c1_duplicate_key_pair_in_result :
    getReports c1state {} = .ok [(S "Ali", [c1curR, c1histR])] ∧
    entryKey c1curR = entryKey c1histR ∧ c1curR ≠ c1histR := by decide

/-- Claim C2 counterexample: for a record with entries dated `01/01/2024`,
`15/06/2024`, `20/12/2024`, `mode='all'` does not return the three entries
newest-first: the per-record list has five entries (every history snapshot
appears twice), so the claim is false on this input. -/
theorem c2_mode_all_counterexample :
    getReports c2state { mode := .allR } =
      .ok [(S "Ali", [c2h01R, c2h01R, c2h15R, c2h15R, c2curR])] ∧
    ([c2h01R, c2h01R, c2h15R, c2h15R, c2curR] : List Doc).length ≠ 3 := by decide

/-- Claim C2 as amended: on the three-dates record, `mode='first'` returns
exactly one entry, dated `01/01/2024`, and `mode='last'` exactly one, dated
`20/12/2024` (selected by the final ascending sort on the raw date string);
`mode='all'` returns the surviving entries with each history snapshot
duplicated, sorted oldest-first by date string. -/
theorem c2_mode_reduction_actual :
    getReports c2state { mode := .first } = .ok [(S "Ali", [c2h01R])] ∧
    dgetD c2h01R (S "date") [] = S "01/01/2024" ∧
    getReports c2state { mode := .last } = .ok [(S "Ali", [c2curR])] ∧
    dgetD c2curR (S "date") [] = S "20/12/2024" ∧
    getReports c2state { mode := .allR } =
      .ok [(S "Ali", [c2h01R, c2h01R, c2h15R, c2h15R, c2curR])] := by decide

/-- Claim C3 counterexample: with neither month nor year set,
`_matches_date_criteria` short-circuits to `True` before parsing, so an
unparseable date string matches — refuting both "fails closed regardless of
whether the constraints are set" and "true exactly for parseable dates". -/
theorem c3_unset_criteria_counterexample :
    matchesDateCriteria (S "not-a-date") {} = true ∧
    parseDate (S "not-a-date") = none := by decide

/-- Claim C3 as amended: when a month or year constraint is set (truthy), an
entry date that fails to parse never matches (fails closed); when neither is
set, every date string matches, parseable or not. -/
theorem c3_date_matching_amended (s : Str) (c : Criteria) :
    ((optITruthy c.month || optITruthy c.year) = true → parseDate s = none →
      matchesDateCriteria s c = false) ∧
    ((optITruthy c.month || optITruthy c.year) = false →
      matchesDateCriteria s c = true) := by
  constructor
  · intro ht hp
    simp [matchesDateCriteria, ht, hp]
  · intro hf
    simp [matchesDateCriteria, hf]

/-- Witness for the amended C3 theorem at concrete inputs. -/
theorem c3_date_matching_amended_witness :
    matchesDateCriteria (S "bad-date") { month := some 6 } = false ∧
    matchesDateCriteria (S "bad-date") {} = true :=
  ⟨(c3_date_matching_amended (S "bad-date") { month := some 6 }).1 (by decide) (by decide),
   (c3_date_matching_amended (S "bad-date") {}).2 (by decide)⟩

/-- Claim C4 counterexample: a field absent on one side and present with the
empty value on the other IS reported as a change (`dict.get` yields `None`
for the absent side and `None != ""`), refuting the claimed absence-as-empty
equivalence. -/
theorem c4_absent_vs_empty_counterexample :
    computeProfileDiff [] [(S "a", S "")] = [(S "a", none, some (S ""))] ∧
    computeProfileDiff [] [(S "a", S "")] ≠ [] := by decide

/-- Claim C4 as amended: `diff(A, B)` contains exactly the keys where the
`dict.get` values differ — with absence represented as `None`, a value
distinct from the empty string — and `diff(A, A)` is always empty. -/
theorem c4_diff_exact_keys_amended :
    (∀ (A B : Doc) (k : Str),
        k ∈ (computeProfileDiff A B).map Prod.fst ↔ dget A k ≠ dget B k) ∧
    (∀ A : Doc, computeProfileDiff A A = []) := by
  constructor
  · intro A B k
    constructor
    · intro hk
      rcases List.mem_map.mp hk with ⟨c, hc, hfst⟩
      rcases List.mem_filterMap.mp hc with ⟨k0, hk0, hsome⟩
      by_cases hne : dget A k0 ≠ dget B k0
      · rw [if_pos hne] at hsome
        have hce := Option.some_inj.mp hsome
        rw [← hce] at hfst
        simpa [← hfst] using hne
      · rw [if_neg hne] at hsome
        cases hsome
    · intro hne
      have hmem : k ∈ docKeys A ++ docKeys B := by
        by_contra hnm
        simp only [List.mem_append, not_or] at hnm
        rw [dget_eq_none_of_not_mem A k hnm.1, dget_eq_none_of_not_mem B k hnm.2] at hne
        exact hne rfl
      refine List.mem_map.mpr ⟨(k, dget A k, dget B k), ?_, rfl⟩
      exact List.mem_filterMap.mpr
        ⟨k, (mem_dedupKeys k _).mpr hmem, by rw [if_pos hne]⟩
  · intro A
    simp only [computeProfileDiff]
    rw [List.filterMap_eq_nil_iff]
    intro k _
    simp

/-- Claim C5: when the diff of old and new states is empty,
`append_profile_history` is a no-op — the log is returned unchanged, so its
length is preserved. -/
theorem c5_idempotent_save (log : List HistEntry) (od nw : Doc) (ts p f : Str)
    (h : computeProfileDiff od nw = []) :
    appendProfileHistory log od nw ts p f = log ∧
      (appendProfileHistory log od nw ts p f).length = log.length := by
  have heq : appendProfileHistory log od nw ts p f = log := by
    simp [appendProfileHistory, h]
  exact ⟨heq, by rw [heq]⟩

/-- Witness for C5 at a concrete unchanged record. -/
theorem c5_idempotent_save_witness :
    appendProfileHistory [] [(S "topic", S "A")] [(S "topic", S "A")]
        (S "t") (S "p") (S "f") = [] ∧
    (appendProfileHistory [] [(S "topic", S "A")] [(S "topic", S "A")]
        (S "t") (S "p") (S "f")).length = ([] : List HistEntry).length :=
  c5_idempotent_save [] _ _ _ _ _ (by decide)

/-- Claim C6: a log produced only by `append_profile_history` (starting from
no log) reads back version numbers that are exactly `1, 2, …, n` — each
append assigns last version plus one, and `1` on an empty log. -/
theorem c6_version_monotonic (ops : List SaveOp) :
    versionList (buildLog ops) = natVersions (buildLog ops).length :=
  buildLog_fold_inv ops [] (by simp [versionList, natVersions])

/-- Claim C7: reading history from a non-existent log file yields the empty
sequence, reading any log yields exactly the entries of its valid dict
lines in order, and a five-line log with one malformed line yields exactly
its four valid entries. -/
theorem c7_history_read_resilience :
    loadProfileHistory none = [] ∧
    (∀ (e : HistEntry) (ls : List ULine),
        e ∈ loadProfileHistory (some ls) ↔ ULine.valid e ∈ ls) ∧
    (∀ e1 e2 e3 e4 : HistEntry,
        loadProfileHistory
          (some [.valid e1, .valid e2, .malformed, .valid e3, .valid e4]) =
          [e1, e2, e3, e4]) := by
  refine ⟨rfl, ?_, ?_⟩
  · intro e ls
    simp only [loadProfileHistory, List.mem_filterMap]
    constructor
    · rintro ⟨l, hl, hsome⟩
      cases l <;> simp_all
    · intro hv
      exact ⟨.valid e, hv, rfl⟩
  · intro e1 e2 e3 e4
    rfl

/-- Claim C8 counterexample: the date `31-12-2024` parses under neither
`DD/MM/YYYY` nor `YYYY-MM-DD`, yet `save_profile` accepts and persists the
profile, because `validate_profile_data` also tries `%m/%d/%Y`, `%d-%m-%Y`
and `%m-%d-%Y`. -/
theorem c8_dash_date_counterexample :
    parseDMYslash (S "31-12-2024") = none ∧ parseYMDdash (S "31-12-2024") = none ∧
    saveProfile [(S "student_name", S "Ali"), (S "date", S "31-12-2024")] =
      .ok [(S "student_name", S "Ali"), (S "date", S "31-12-2024")] := by decide

/-- Claim C8 as amended: saving validates before anything is persisted — an
empty or missing student name always fails the save, and a non-empty date
field that parses under none of the five formats tried by the validator
(`YYYY-MM-DD`, `DD/MM/YYYY`, `MM/DD/YYYY`, `DD-MM-YYYY`, `MM-DD-YYYY`)
always fails the save. -/
theorem c8_validation_gate_amended (d : Doc) :
    (trimS (dgetD d (S "student_name") []) = [] → (saveProfile d).isOk = false) ∧
    (trimS (dgetD d (S "date") []) ≠ [] →
      validDateFieldFive (trimS (dgetD d (S "date") [])) = false →
      (saveProfile d).isOk = false) := by
  constructor
  · intro h
    cases hv : validateProfileData d with
    | none => exact absurd h (validate_none_conditions d hv).1
    | some msg => simp [saveProfile, hv, Except.isOk, Except.toBool]
  · intro h1 h2
    cases hv : validateProfileData d with
    | none =>
      rcases (validate_none_conditions d hv).2 with h | h
      · exact absurd h h1
      · rw [h2] at h; cases h
    | some msg => simp [saveProfile, hv, Except.isOk, Except.toBool]

/-- Witness for the amended C8 theorem: a profile with no student name, and
one whose date is in a prose format, are both rejected. -/
theorem c8_validation_gate_amended_witness :
    (saveProfile [(S "teacher_name", S "T")]).isOk = false ∧
    (saveProfile [(S "student_name", S "Ali"), (S "date", S "June 1, 2024")]).isOk = false :=
  ⟨(c8_validation_gate_amended [(S "teacher_name", S "T")]).1 (by decide),
   (c8_validation_gate_amended [(S "student_name", S "Ali"), (S "date", S "June 1, 2024")]).2
     (by decide) (by decide)⟩

/-- Claim C9: on a record whose current state carries its date in the legacy
`YYYY-MM-DD` format — accepted by `_parse_date` and by the date filter —
the newest-first sort key of `get_reports` parses strictly with `%d/%m/%Y`,
so extraction aborts with an uncaught `ValueError` instead of returning a
report. -/
theorem c9_sort_key_aborts_extraction :
    getReports c9state {} = .error (S "ValueError: invalid date in sort key") ∧
    parseDate (S "2024-06-15") = some ⟨2024, 6, 15⟩ ∧
    parseDMYslash (S "2024-06-15") = none := by decide

/-- Claim C10: `_load_profile_history` selects history files by the prefix
glob `base_name*.jsonl`, so whenever one record's stem is a prefix of a
history file's stem, every snapshot of that file lands in the record's
candidate set (stamped with the record's own `_file`). -/
theorem c10_glob_includes_history (hist : HistDir) (pA nm : Str)
    (lines : List XLine) (d : Doc) (ts : Str)
    (hmem : (nm, some lines) ∈ hist)
    (hpre : strStarts pA nm = true)
    (hline : XLine.snap d ts ∈ lines) :
    setField (setField d (S "_file") pA) (S "_timestamp") ts ∈ loadHistX hist pA := by
  unfold loadHistX
  apply List.mem_flatMap.mpr
  refine ⟨(nm, some lines), ?_, ?_⟩
  · apply List.mem_filter.mpr
    refine ⟨hmem, ?_⟩
    simpa using strStarts_trans _ _ _ (baseName_starts pA) hpre
  · exact List.mem_filterMap.mpr ⟨.snap d ts, hline, rfl⟩

/-- Witness for C10: record stem `Ali` picks up the history file of the
longer-named record `Alia`. -/
theorem c10_glob_includes_history_witness :
    setField (setField [(S "date", S "02/02/2024")] (S "_file") (S "Ali"))
        (S "_timestamp") (S "t1") ∈
      loadHistX [(S "Alia", some [XLine.snap [(S "date", S "02/02/2024")] (S "t1")])]
        (S "Ali") :=
  c10_glob_includes_history
    [(S "Alia", some [XLine.snap [(S "date", S "02/02/2024")] (S "t1")])]
    (S "Ali") (S "Alia") [XLine.snap [(S "date", S "02/02/2024")] (S "t1")]
    [(S "date", S "02/02/2024")] (S "t1")
    (by decide) (by decide) (by decide)
